import Mathlib

/-!
Shallow embedding of `stock_job_report.py`: a daily stock / periodic hiring
report generator.  Python numbers are modelled by `ℚ` (prices, percentages)
and `ℕ` (job counts); dates by `ℤ` day numbers (the script only ever takes
day differences of `datetime` values); Python dicts by association lists
with first-match lookup; a raised exception by `Except.error`.
-/

namespace StockJobReport

/-- The value returned by `get_stock_data` on success: the last close price
and the same-session percentage change computed from the price history.
(The source formats these as strings only at presentation time.) -/
structure StockData where
  symbol : String
  price : ℚ
  daily_change : ℚ
deriving DecidableEq, Repr

/-- Model of the SerpApi HTTP response consumed by `get_job_openings`:
either the request/JSON decoding raised, or the JSON object carries an
`error` field, a `jobs_results` list (only its length is used, so it is
modelled by that length), a `search_parameters` object whose nested
`jobs_search_result_count` filter may be present or absent, or none of
these keys. -/
inductive SerpResponse where
  | exn
  | errorField
  | jobsResults (n : ℕ)
  | searchParameters (count : Option ℕ)
  | other
deriving DecidableEq, Repr

/-- `get_job_openings` (source lines 87–111): every failure path — a raised
exception, an `error` field, or missing keys — falls through to `return 0`;
a `jobs_results` list yields its length; otherwise the nested filter count
with default 0. -/
def get_job_openings (r : SerpResponse) : ℕ :=
  match r with
  | .exn => 0
  | .errorField => 0
  | .jobsResults n => n
  | .searchParameters count => count.getD 0
  | .other => 0

/-- The persisted reference state: the decoded content of `references.json`. -/
structure References where
  stock_references : List (String × ℚ)
  job_references : List (String × ℕ)
  last_report_date : Option ℤ
deriving DecidableEq, Repr

/-- The dictionary literal returned by `load_references` when no file exists. -/
def emptyReferences : References :=
  { stock_references := [], job_references := [], last_report_date := none }

/-- State of the `references.json` file: absent, present but unreadable
(I/O error or invalid JSON), or present with decoded content. -/
inductive RefFile where
  | absent
  | unreadable
  | content (refs : References)
deriving DecidableEq, Repr

/-- `load_references` (source lines 113–122): if the file does not exist the
empty state is returned; if it exists, `open`/`json.load` runs without any
exception handler, so an unreadable or corrupt file raises out of the
function. -/
def load_references : RefFile → Except Unit References
  | .absent => .ok emptyReferences
  | .unreadable => .error ()
  | .content refs => .ok refs

/-- `should_generate_job_report` (source lines 129–135): true when
`last_report_date` is unset, otherwise when at least 10 whole days have
elapsed since it.  The interval 10 is hard-coded in the source. -/
def should_generate_job_report (references : References) (now : ℤ) : Bool :=
  match references.last_report_date with
  | none => true
  | some last => decide (now - last ≥ 10)

/-- `TOP_STOCKS` (source lines 21–25), in source order. -/
def TOP_STOCKS : List (String × List String) :=
  [("Semiconductor",
      ["NVDA", "TSM", "ASML", "AMD", "INTC", "AVGO", "QCOM", "TXN", "MU", "ADI"]),
   ("AI",
      ["MSFT", "GOOG", "AMZN", "META", "ORCL", "IBM", "CRM", "NOW", "PATH", "AI"]),
   ("Defense",
      ["LMT", "RTX", "BA", "GD", "NOC", "HII", "LHX", "KBR", "LDOS", "BWXT"])]

/-- `COMPANY_NAMES` (source lines 28–59). -/
def COMPANY_NAMES : List (String × String) :=
  [("NVDA", "NVIDIA"), ("TSM", "TSMC"), ("ASML", "ASML"), ("AMD", "AMD"),
   ("INTC", "Intel"), ("AVGO", "Broadcom"), ("QCOM", "Qualcomm"),
   ("TXN", "Texas Instruments"), ("MU", "Micron Technology"),
   ("ADI", "Analog Devices"), ("MSFT", "Microsoft"), ("GOOG", "Google"),
   ("AMZN", "Amazon"), ("META", "Meta"), ("ORCL", "Oracle"), ("IBM", "IBM"),
   ("CRM", "Salesforce"), ("NOW", "ServiceNow"), ("PATH", "UiPath"),
   ("AI", "C3.ai"), ("LMT", "Lockheed Martin"), ("RTX", "Raytheon Technologies"),
   ("BA", "Boeing"), ("GD", "General Dynamics"), ("NOC", "Northrop Grumman"),
   ("HII", "Huntington Ingalls Industries"), ("LHX", "L3Harris Technologies"),
   ("KBR", "KBR"), ("LDOS", "Leidos"), ("BWXT", "BWX Technologies")]

/-- The percentage change vs reference for prices (source line 164):
`((current_price - ref_price) / ref_price) * 100`.  In the source
`ref_price` is never 0 in practice; `ℚ` division is total. -/
def ref_change (current_price ref_price : ℚ) : ℚ :=
  (current_price - ref_price) / ref_price * 100

/-- The percentage change vs reference for job counts (source line 191):
`((current_jobs - ref_jobs) / ref_jobs) * 100 if ref_jobs > 0 else 0`. -/
def job_change (current_jobs ref_jobs : ℕ) : ℚ :=
  if ref_jobs > 0 then
    ((current_jobs : ℚ) - (ref_jobs : ℚ)) / (ref_jobs : ℚ) * 100
  else 0

/-- The key under which a ticker's price baseline is stored
(source line 157): `f"{ticker}_reference"`. -/
def stock_key (ticker : String) : String := ticker ++ "_reference"

/-- One row of a sector's stock table (source lines 166–171); the numeric
values, before display formatting. -/
structure StockRow where
  symbol : String
  current_price : ℚ
  change_vs_reference : ℚ
  daily_change : ℚ
deriving DecidableEq, Repr

/-- One row of the job table (source lines 193–198). -/
structure JobRow where
  sector : String
  company : String
  current_jobs : ℕ
  change_vs_reference : ℚ
deriving DecidableEq, Repr

/-- One iteration of the inner stock loop (source lines 151–171), acting on
the running `(stock_references, new_references, category_data)` state.  A
failed fetch is skipped (`continue`); otherwise the baseline is stored if
absent, then re-read — which yields the observed price in the newly-captured
branch and the stored value otherwise — and a row is appended. -/
def process_stock_ticker (priceFetch : String → Option StockData)
    (acc : List (String × ℚ) × Bool × List StockRow) (ticker : String) :
    List (String × ℚ) × Bool × List StockRow :=
  match priceFetch ticker with
  | none => acc
  | some sd =>
    match acc.1.lookup (stock_key ticker) with
    | none =>
        (acc.1 ++ [(stock_key ticker, sd.price)], true,
         acc.2.2 ++ [⟨ticker, sd.price, ref_change sd.price sd.price, sd.daily_change⟩])
    | some ref_price =>
        (acc.1, acc.2.1,
         acc.2.2 ++ [⟨ticker, sd.price, ref_change sd.price ref_price, sd.daily_change⟩])

/-- The stock pass over all categories (source lines 148–173), producing the
final `stock_references`, the `new_references` flag, and `stock_report` as a
list of `(category, category_data)` in category order.  Every category is
assigned a (possibly empty) row list. -/
def stock_cat_step (priceFetch : String → Option StockData)
    (acc : List (String × ℚ) × Bool × List (String × List StockRow))
    (cat : String × List String) :
    List (String × ℚ) × Bool × List (String × List StockRow) :=
  let r := cat.2.foldl (process_stock_ticker priceFetch) (acc.1, acc.2.1, [])
  (r.1, r.2.1, acc.2.2 ++ [(cat.1, r.2.2)])

def stock_pass (priceFetch : String → Option StockData)
    (cats : List (String × List String))
    (srefs0 : List (String × ℚ)) (new0 : Bool) :
    List (String × ℚ) × Bool × List (String × List StockRow) :=
  cats.foldl (stock_cat_step priceFetch) (srefs0, new0, [])

/-- One iteration of the inner job loop (source lines 182–198): the company
name is looked up with the ticker itself as default, the job count is
fetched (`get_job_openings` never fails — failures surface as count 0), the
baseline is stored if absent, and a row is always appended. -/
def process_job_ticker (jobResp : String → SerpResponse) (sector : String)
    (acc : List (String × ℕ) × Bool × List JobRow) (ticker : String) :
    List (String × ℕ) × Bool × List JobRow :=
  let company_name := (COMPANY_NAMES.lookup ticker).getD ticker
  let current_jobs := get_job_openings (jobResp company_name)
  match acc.1.lookup ticker with
  | none =>
      (acc.1 ++ [(ticker, current_jobs)], true,
       acc.2.2 ++ [⟨sector, company_name, current_jobs, job_change current_jobs current_jobs⟩])
  | some ref_jobs =>
      (acc.1, acc.2.1,
       acc.2.2 ++ [⟨sector, company_name, current_jobs, job_change current_jobs ref_jobs⟩])

/-- The job pass over all categories (source lines 181–201), producing the
final `job_references`, the `new_references` flag, and the flat `job_data`
row list. -/
def job_cat_step (jobResp : String → SerpResponse)
    (acc : List (String × ℕ) × Bool × List JobRow) (cat : String × List String) :
    List (String × ℕ) × Bool × List JobRow :=
  cat.2.foldl (process_job_ticker jobResp cat.1) acc

def job_pass (jobResp : String → SerpResponse)
    (cats : List (String × List String))
    (jrefs0 : List (String × ℕ)) (new0 : Bool) :
    List (String × ℕ) × Bool × List JobRow :=
  cats.foldl (job_cat_step jobResp) (jrefs0, new0, [])

/-- The value returned by `generate_report`, together with the final
in-memory reference state and whether `save_references` was called. -/
structure ReportResult where
  stock_report : List (String × List StockRow)
  job_report : Option (List JobRow)
  generate_jobs : Bool
  references : References
  saved : Bool
deriving DecidableEq, Repr

/-- The body of `generate_report` after a successful load (source lines
139–208): evaluate the cadence gate, run the stock pass, then — only when
the gate is open — set `last_report_date` to today, raise the dirty flag,
and run the job pass.  `job_report` is `None` exactly when `job_data` is
the empty list, and `save_references` is invoked iff `new_references`. -/
def generate_report_refs (references : References) (today : ℤ)
    (priceFetch : String → Option StockData) (jobResp : String → SerpResponse) :
    ReportResult :=
  let generate_jobs := should_generate_job_report references today
  let s := stock_pass priceFetch TOP_STOCKS references.stock_references false
  let references1 : References :=
    { references with stock_references := s.1 }
  let afterJobs : References × Bool × List JobRow :=
    if generate_jobs then
      let references2 := { references1 with last_report_date := some today }
      let j := job_pass jobResp TOP_STOCKS references2.job_references true
      ({ references2 with job_references := j.1 }, j.2.1, j.2.2)
    else (references1, s.2.1, [])
  let job_report : Option (List JobRow) :=
    if afterJobs.2.2.isEmpty then none else some afterJobs.2.2
  { stock_report := s.2.2
    job_report := job_report
    generate_jobs := generate_jobs
    references := afterJobs.1
    saved := afterJobs.2.1 }

/-- `generate_report` (source lines 137–208): load the reference file —
propagating a read exception — then run the body above. -/
def generate_report (file : RefFile) (today : ℤ)
    (priceFetch : String → Option StockData) (jobResp : String → SerpResponse) :
    Except Unit ReportResult :=
  match load_references file with
  | .error e => .error e
  | .ok references => .ok (generate_report_refs references today priceFetch jobResp)

/-- The inputs of one run that vary between runs: the current date and the
behaviour of the two external data sources. -/
structure RunInput where
  today : ℤ
  priceFetch : String → Option StockData
  jobResp : String → SerpResponse

/-- Effect of one invocation of the script on the `references.json` file: an
uncaught load exception kills the process before any write; otherwise the
full in-memory state is written iff the dirty flag was raised. -/
def run_once (file : RefFile) (inp : RunInput) : RefFile :=
  match generate_report file inp.today inp.priceFetch inp.jobResp with
  | .error _ => file
  | .ok res => if res.saved then .content res.references else file

/-- Effect of a sequence of runs on the reference file. -/
def run_seq (file : RefFile) (inps : List RunInput) : RefFile :=
  inps.foldl run_once file

/-- The stored price baseline for a key, read off the durable file. -/
def stockBaselineOf (file : RefFile) (k : String) : Option ℚ :=
  match file with
  | .content refs => refs.stock_references.lookup k
  | _ => none

/-- The stored hiring baseline for a ticker, read off the durable file. -/
def jobBaselineOf (file : RefFile) (k : String) : Option ℕ :=
  match file with
  | .content refs => refs.job_references.lookup k
  | _ => none

/-- The four environment variables read at module import
(source lines 15–18); `os.environ.get` yields `None` when absent. -/
structure Env where
  SENDER_EMAIL : Option String
  SENDER_PASSWORD : Option String
  RECIPIENT_EMAIL : Option String
  SERPAPI_KEY : Option String
deriving DecidableEq, Repr

/-- Observable outcome of one process invocation. -/
structure MainOutcome where
  exit_code : ℕ
  price_fetch_attempts : ℕ
  email_sent : Bool
deriving DecidableEq, Repr

/-- Number of price fetches one completed stock pass attempts: the loop at
source lines 148–152 calls `get_stock_data` once per ticker, unconditionally. -/
def total_tickers : ℕ := (TOP_STOCKS.map (fun cat => cat.2.length)).sum

/-- Whether `send_report`'s SMTP block succeeds (source lines 326–332): it
needs the sender credentials and a recipient, plus a working SMTP session;
any exception inside it is caught and logged, never re-raised. -/
def send_report_ok (env : Env) (smtp_ok : Bool) : Bool :=
  env.SENDER_EMAIL.isSome && env.SENDER_PASSWORD.isSome &&
    env.RECIPIENT_EMAIL.isSome && smtp_ok

/-- The `__main__` block (source lines 337–351): no configuration check of
any kind precedes `generate_report` — a missing environment variable only
surfaces later, inside the caught SMTP block (or as SerpApi error responses,
which reach this model through `jobResp`).  The process exits non-zero only
if an exception escapes `generate_report` (an unreadable reference file);
otherwise it attempts every price fetch and exits 0 whether or not the
email could be sent. -/
def main_run (env : Env) (file : RefFile) (today : ℤ)
    (priceFetch : String → Option StockData) (jobResp : String → SerpResponse)
    (smtp_ok : Bool) : MainOutcome :=
  match generate_report file today priceFetch jobResp with
  | .error _ =>
      { exit_code := 1, price_fetch_attempts := 0, email_sent := false }
  | .ok _ =>
      { exit_code := 0, price_fetch_attempts := total_tickers,
        email_sent := send_report_ok env smtp_ok }

/-! ### Characterisation of the two passes

The folds above thread the reference dictionary through the loop; because
every ticker occurs once in the configuration, each ticker's row and capture
depend only on the dictionary as it stood at the start of the pass.  The
functions below express one ticker's contribution relative to that initial
dictionary; the fold lemmas prove the folds equal to them. -/

/-- The stock row produced for a ticker, relative to the stock-reference
dictionary at the start of the pass; `none` when the price fetch failed. -/
def rowFor (srefs : List (String × ℚ)) (priceFetch : String → Option StockData)
    (ticker : String) : Option StockRow :=
  match priceFetch ticker with
  | none => none
  | some sd =>
    match srefs.lookup (stock_key ticker) with
    | none => some ⟨ticker, sd.price, ref_change sd.price sd.price, sd.daily_change⟩
    | some ref_price => some ⟨ticker, sd.price, ref_change sd.price ref_price, sd.daily_change⟩

/-- The price-baseline entry newly captured for a ticker, if any. -/
def captureFor (srefs : List (String × ℚ)) (priceFetch : String → Option StockData)
    (ticker : String) : Option (String × ℚ) :=
  match priceFetch ticker with
  | none => none
  | some sd =>
    match srefs.lookup (stock_key ticker) with
    | none => some (stock_key ticker, sd.price)
    | some _ => none

/-- The job row produced for a ticker, relative to the job-reference
dictionary at the start of the pass; always produced. -/
def jobRowFor (jrefs : List (String × ℕ)) (jobResp : String → SerpResponse)
    (sector ticker : String) : JobRow :=
  let company_name := (COMPANY_NAMES.lookup ticker).getD ticker
  let current_jobs := get_job_openings (jobResp company_name)
  match jrefs.lookup ticker with
  | none => ⟨sector, company_name, current_jobs, job_change current_jobs current_jobs⟩
  | some ref_jobs => ⟨sector, company_name, current_jobs, job_change current_jobs ref_jobs⟩

/-- The hiring-baseline entry newly captured for a ticker, if any. -/
def jobCaptureFor (jrefs : List (String × ℕ)) (jobResp : String → SerpResponse)
    (ticker : String) : Option (String × ℕ) :=
  match jrefs.lookup ticker with
  | none =>
      some (ticker, get_job_openings (jobResp ((COMPANY_NAMES.lookup ticker).getD ticker)))
  | some _ => none

/-- The flat list of all configured tickers, in iteration order. -/
def allTickers : List String := TOP_STOCKS.flatMap (fun cat => cat.2)

/-! ### Association-list lookup lemmas -/

theorem lookup_cons {β : Type} (k k' : String) (v : β) (l : List (String × β)) :
    List.lookup k ((k', v) :: l) = if k = k' then some v else List.lookup k l := by
  by_cases h : k = k'
  · simp [List.lookup, h]
  · have hb : (k == k') = false := beq_eq_false_iff_ne.mpr h
    simp [List.lookup, hb, h]

theorem lookup_append {β : Type} (k : String) (l₁ l₂ : List (String × β)) :
    List.lookup k (l₁ ++ l₂) =
      match List.lookup k l₁ with
      | some v => some v
      | none => List.lookup k l₂ := by
  induction l₁ with
  | nil => simp
  | cons p l₁ ih =>
    rw [List.cons_append, lookup_cons, lookup_cons]
    by_cases h : k = p.1 <;> simp [h, ih]

theorem lookup_append_of_some {β : Type} {k : String} {v : β}
    {l₁ : List (String × β)} (l₂ : List (String × β))
    (h : List.lookup k l₁ = some v) : List.lookup k (l₁ ++ l₂) = some v := by
  rw [lookup_append, h]

theorem lookup_eq_none_of_keys_ne {β : Type} {k : String} {l : List (String × β)}
    (h : ∀ p ∈ l, p.1 ≠ k) : List.lookup k l = none := by
  induction l with
  | nil => simp
  | cons p l ih =>
    rw [lookup_cons]
    have hp : p.1 ≠ k := h p (List.mem_cons_self p l)
    have : k ≠ p.1 := fun hk => hp hk.symm
    simp [this, ih fun q hq => h q (List.mem_cons_of_mem p hq)]

theorem lookup_append_of_keys_ne {β : Type} {k : String}
    {l₁ l₂ : List (String × β)} (h : ∀ p ∈ l₂, p.1 ≠ k) :
    List.lookup k (l₁ ++ l₂) = List.lookup k l₁ := by
  rw [lookup_append]
  cases hm : List.lookup k l₁ with
  | none => simp [lookup_eq_none_of_keys_ne h]
  | some v => rfl

theorem stock_key_injective : Function.Injective stock_key := by
  intro a b h
  have h2 := congrArg String.data h
  simp [stock_key, String.data_append] at h2
  exact String.ext h2

/-- Every key captured by the stock pass is the `stock_key` of a processed
ticker. -/
theorem captureFor_keys {srefs : List (String × ℚ)}
    {pf : String → Option StockData} {ts : List String} {p : String × ℚ}
    (h : p ∈ ts.filterMap (captureFor srefs pf)) :
    ∃ u ∈ ts, p.1 = stock_key u := by
  obtain ⟨a, ha, hc⟩ := List.mem_filterMap.mp h
  refine ⟨a, ha, ?_⟩
  unfold captureFor at hc
  cases hpf : pf a <;> rw [hpf] at hc
  · exact absurd hc (by simp)
  · cases hlk : srefs.lookup (stock_key a) <;> rw [hlk] at hc
    · cases hc; rfl
    · exact absurd hc (by simp)

/-- Every key captured by the job pass is a processed ticker. -/
theorem jobCaptureFor_keys {jrefs : List (String × ℕ)}
    {jr : String → SerpResponse} {ts : List String} {p : String × ℕ}
    (h : p ∈ ts.filterMap (jobCaptureFor jrefs jr)) :
    ∃ u ∈ ts, p.1 = u := by
  obtain ⟨a, ha, hc⟩ := List.mem_filterMap.mp h
  refine ⟨a, ha, ?_⟩
  unfold jobCaptureFor at hc
  cases hlk : jrefs.lookup a <;> rw [hlk] at hc
  · cases hc; rfl
  · exact absurd hc (by simp)

/-- Characterisation of one category's stock loop: relative to the
dictionary at the start of the loop, it appends the newly captured
baselines, or-accumulates the dirty flag, and appends one row per
successful fetch. -/
theorem stock_fold_spec (pf : String → Option StockData) (ts : List String)
    (srefs : List (String × ℚ)) (newr : Bool) (rows : List StockRow)
    (hnd : ts.Nodup) :
    ts.foldl (process_stock_ticker pf) (srefs, newr, rows) =
      (srefs ++ ts.filterMap (captureFor srefs pf),
       newr || !(ts.filterMap (captureFor srefs pf)).isEmpty,
       rows ++ ts.filterMap (rowFor srefs pf)) := by
  induction ts generalizing srefs newr rows with
  | nil => simp
  | cons t ts ih =>
    rw [List.nodup_cons] at hnd
    obtain ⟨ht, hnd'⟩ := hnd
    rw [List.foldl_cons]
    cases hpf : pf t with
    | none =>
      have hstep : process_stock_ticker pf (srefs, newr, rows) t = (srefs, newr, rows) := by
        simp [process_stock_ticker, hpf]
      rw [hstep, ih srefs newr rows hnd']
      have hc : captureFor srefs pf t = none := by simp [captureFor, hpf]
      have hr : rowFor srefs pf t = none := by simp [rowFor, hpf]
      simp [List.filterMap_cons, hc, hr]
    | some sd =>
      cases hlk : srefs.lookup (stock_key t) with
      | some ref_price =>
        have hstep : process_stock_ticker pf (srefs, newr, rows) t =
            (srefs, newr,
             rows ++ [⟨t, sd.price, ref_change sd.price ref_price, sd.daily_change⟩]) := by
          simp [process_stock_ticker, hpf, hlk]
        rw [hstep, ih _ _ _ hnd']
        have hc : captureFor srefs pf t = none := by simp [captureFor, hpf, hlk]
        have hr : rowFor srefs pf t =
            some ⟨t, sd.price, ref_change sd.price ref_price, sd.daily_change⟩ := by
          simp [rowFor, hpf, hlk]
        simp [List.filterMap_cons, hc, hr, List.append_assoc]
      | none =>
        have hstep : process_stock_ticker pf (srefs, newr, rows) t =
            (srefs ++ [(stock_key t, sd.price)], true,
             rows ++ [⟨t, sd.price, ref_change sd.price sd.price, sd.daily_change⟩]) := by
          simp [process_stock_ticker, hpf, hlk]
        rw [hstep, ih _ _ _ hnd']
        have hlk' : ∀ u ∈ ts,
            (srefs ++ [(stock_key t, sd.price)]).lookup (stock_key u)
              = srefs.lookup (stock_key u) := by
          intro u hu
          apply lookup_append_of_keys_ne
          intro p hp
          rcases List.mem_singleton.mp hp with rfl
          intro hEq
          exact ht (stock_key_injective hEq ▸ hu)
        have hcfg : ts.filterMap (captureFor (srefs ++ [(stock_key t, sd.price)]) pf)
            = ts.filterMap (captureFor srefs pf) :=
          List.filterMap_congr fun u hu => by unfold captureFor; rw [hlk' u hu]
        have hrfg : ts.filterMap (rowFor (srefs ++ [(stock_key t, sd.price)]) pf)
            = ts.filterMap (rowFor srefs pf) :=
          List.filterMap_congr fun u hu => by unfold rowFor; rw [hlk' u hu]
        have hc : captureFor srefs pf t = some (stock_key t, sd.price) := by
          simp [captureFor, hpf, hlk]
        have hr : rowFor srefs pf t =
            some ⟨t, sd.price, ref_change sd.price sd.price, sd.daily_change⟩ := by
          simp [rowFor, hpf, hlk]
        rw [hcfg, hrfg]
        simp [List.filterMap_cons, hc, hr, List.append_assoc]

/-- Characterisation of one category's job loop: one row per ticker
(unconditionally), plus the newly captured baselines. -/
theorem job_fold_spec (jr : String → SerpResponse) (sector : String)
    (ts : List String) (jrefs : List (String × ℕ)) (newr : Bool)
    (rows : List JobRow) (hnd : ts.Nodup) :
    ts.foldl (process_job_ticker jr sector) (jrefs, newr, rows) =
      (jrefs ++ ts.filterMap (jobCaptureFor jrefs jr),
       newr || !(ts.filterMap (jobCaptureFor jrefs jr)).isEmpty,
       rows ++ ts.map (jobRowFor jrefs jr sector)) := by
  induction ts generalizing jrefs newr rows with
  | nil => simp
  | cons t ts ih =>
    rw [List.nodup_cons] at hnd
    obtain ⟨ht, hnd'⟩ := hnd
    rw [List.foldl_cons]
    cases hlk : jrefs.lookup t with
    | some ref_jobs =>
      have hstep : process_job_ticker jr sector (jrefs, newr, rows) t =
          (jrefs, newr, rows ++ [jobRowFor jrefs jr sector t]) := by
        simp [process_job_ticker, jobRowFor, hlk]
      rw [hstep, ih _ _ _ hnd']
      have hc : jobCaptureFor jrefs jr t = none := by simp [jobCaptureFor, hlk]
      simp [List.filterMap_cons, hc, List.append_assoc]
    | none =>
      have hstep : process_job_ticker jr sector (jrefs, newr, rows) t =
          (jrefs ++
             [(t, get_job_openings (jr ((COMPANY_NAMES.lookup t).getD t)))], true,
           rows ++ [jobRowFor jrefs jr sector t]) := by
        simp [process_job_ticker, jobRowFor, hlk]
      rw [hstep, ih _ _ _ hnd']
      have hlk' : ∀ u ∈ ts,
          (jrefs ++ [(t, get_job_openings (jr ((COMPANY_NAMES.lookup t).getD t)))]).lookup u
            = jrefs.lookup u := by
        intro u hu
        apply lookup_append_of_keys_ne
        intro p hp
        rcases List.mem_singleton.mp hp with rfl
        intro hEq
        have htu : t = u := hEq
        exact ht (htu ▸ hu)
      have hcfg : ts.filterMap
            (jobCaptureFor
              (jrefs ++ [(t, get_job_openings (jr ((COMPANY_NAMES.lookup t).getD t)))]) jr)
          = ts.filterMap (jobCaptureFor jrefs jr) :=
        List.filterMap_congr fun u hu => by unfold jobCaptureFor; rw [hlk' u hu]
      have hrfg : ts.map
            (jobRowFor
              (jrefs ++ [(t, get_job_openings (jr ((COMPANY_NAMES.lookup t).getD t)))]) jr sector)
          = ts.map (jobRowFor jrefs jr sector) :=
        List.map_congr_left fun u hu => by unfold jobRowFor; rw [hlk' u hu]
      have hc : jobCaptureFor jrefs jr t =
          some (t, get_job_openings (jr ((COMPANY_NAMES.lookup t).getD t))) := by
        simp [jobCaptureFor, hlk]
      rw [hcfg, hrfg]
      simp [List.filterMap_cons, hc, List.append_assoc]

theorem isEmpty_append {α : Type} (l₁ l₂ : List α) :
    (l₁ ++ l₂).isEmpty = (l₁.isEmpty && l₂.isEmpty) := by
  cases l₁ <;> simp

theorem captureFor_congr {srefs₁ srefs₂ : List (String × ℚ)}
    {pf : String → Option StockData} {u : String}
    (h : srefs₁.lookup (stock_key u) = srefs₂.lookup (stock_key u)) :
    captureFor srefs₁ pf u = captureFor srefs₂ pf u := by
  unfold captureFor; rw [h]

theorem rowFor_congr {srefs₁ srefs₂ : List (String × ℚ)}
    {pf : String → Option StockData} {u : String}
    (h : srefs₁.lookup (stock_key u) = srefs₂.lookup (stock_key u)) :
    rowFor srefs₁ pf u = rowFor srefs₂ pf u := by
  unfold rowFor; rw [h]

theorem jobCaptureFor_congr {jrefs₁ jrefs₂ : List (String × ℕ)}
    {jr : String → SerpResponse} {u : String}
    (h : jrefs₁.lookup u = jrefs₂.lookup u) :
    jobCaptureFor jrefs₁ jr u = jobCaptureFor jrefs₂ jr u := by
  unfold jobCaptureFor; rw [h]

theorem jobRowFor_congr {jrefs₁ jrefs₂ : List (String × ℕ)}
    {jr : String → SerpResponse} {sector u : String}
    (h : jrefs₁.lookup u = jrefs₂.lookup u) :
    jobRowFor jrefs₁ jr sector u = jobRowFor jrefs₂ jr sector u := by
  unfold jobRowFor; rw [h]

/-- Characterisation of the whole stock pass (all categories), relative to
the stock-reference dictionary at the start of the run. -/
theorem stock_pass_fold (pf : String → Option StockData)
    (cats : List (String × List String)) (srefs : List (String × ℚ))
    (newr : Bool) (report : List (String × List StockRow))
    (hnd : (cats.flatMap (fun c => c.2)).Nodup) :
    cats.foldl (stock_cat_step pf) (srefs, newr, report) =
      (srefs ++ (cats.flatMap (fun c => c.2)).filterMap (captureFor srefs pf),
       newr || !((cats.flatMap (fun c => c.2)).filterMap (captureFor srefs pf)).isEmpty,
       report ++ cats.map (fun c => (c.1, c.2.filterMap (rowFor srefs pf)))) := by
  induction cats generalizing srefs newr report with
  | nil => simp
  | cons c cats ih =>
    rw [List.flatMap_cons, List.nodup_append] at hnd
    obtain ⟨h1, h2, hdisj⟩ := hnd
    rw [List.foldl_cons]
    have hstep : stock_cat_step pf (srefs, newr, report) c =
        (srefs ++ c.2.filterMap (captureFor srefs pf),
         newr || !(c.2.filterMap (captureFor srefs pf)).isEmpty,
         report ++ [(c.1, c.2.filterMap (rowFor srefs pf))]) := by
      unfold stock_cat_step
      rw [stock_fold_spec pf c.2 srefs newr [] h1]
      simp
    rw [hstep, ih _ _ _ h2]
    have hlk' : ∀ u ∈ cats.flatMap (fun c' => c'.2),
        (srefs ++ c.2.filterMap (captureFor srefs pf)).lookup (stock_key u)
          = srefs.lookup (stock_key u) := by
      intro u hu
      apply lookup_append_of_keys_ne
      intro p hp hEq
      obtain ⟨w, hw, hpw⟩ := captureFor_keys hp
      rw [hpw] at hEq
      exact hdisj (stock_key_injective hEq ▸ hw) hu
    have hcfg : (cats.flatMap fun c' => c'.2).filterMap
          (captureFor (srefs ++ c.2.filterMap (captureFor srefs pf)) pf)
        = (cats.flatMap fun c' => c'.2).filterMap (captureFor srefs pf) :=
      List.filterMap_congr fun u hu => captureFor_congr (hlk' u hu)
    have hmapcg : (cats.map fun c' =>
          (c'.1, c'.2.filterMap (rowFor (srefs ++ c.2.filterMap (captureFor srefs pf)) pf)))
        = cats.map fun c' => (c'.1, c'.2.filterMap (rowFor srefs pf)) :=
      List.map_congr_left fun c' hc' => by
        congr 1
        exact List.filterMap_congr fun u hu =>
          rowFor_congr (hlk' u (List.mem_flatMap.mpr ⟨c', hc', hu⟩))
    rw [hcfg, hmapcg]
    simp [List.filterMap_append, isEmpty_append, List.append_assoc, Bool.or_assoc]

/-- Characterisation of the whole job pass (all categories), relative to
the job-reference dictionary at the start of the run. -/
theorem job_pass_fold (jr : String → SerpResponse)
    (cats : List (String × List String)) (jrefs : List (String × ℕ))
    (newr : Bool) (rows : List JobRow)
    (hnd : (cats.flatMap (fun c => c.2)).Nodup) :
    cats.foldl (job_cat_step jr) (jrefs, newr, rows) =
      (jrefs ++ (cats.flatMap (fun c => c.2)).filterMap (jobCaptureFor jrefs jr),
       newr || !((cats.flatMap (fun c => c.2)).filterMap (jobCaptureFor jrefs jr)).isEmpty,
       rows ++ cats.flatMap (fun c => c.2.map (jobRowFor jrefs jr c.1))) := by
  induction cats generalizing jrefs newr rows with
  | nil => simp
  | cons c cats ih =>
    rw [List.flatMap_cons, List.nodup_append] at hnd
    obtain ⟨h1, h2, hdisj⟩ := hnd
    rw [List.foldl_cons]
    have hstep : job_cat_step jr (jrefs, newr, rows) c =
        (jrefs ++ c.2.filterMap (jobCaptureFor jrefs jr),
         newr || !(c.2.filterMap (jobCaptureFor jrefs jr)).isEmpty,
         rows ++ c.2.map (jobRowFor jrefs jr c.1)) := by
      unfold job_cat_step
      rw [job_fold_spec jr c.1 c.2 jrefs newr rows h1]
    rw [hstep, ih _ _ _ h2]
    have hlk' : ∀ u ∈ cats.flatMap (fun c' => c'.2),
        (jrefs ++ c.2.filterMap (jobCaptureFor jrefs jr)).lookup u
          = jrefs.lookup u := by
      intro u hu
      apply lookup_append_of_keys_ne
      intro p hp hEq
      obtain ⟨w, hw, hpw⟩ := jobCaptureFor_keys hp
      rw [hpw] at hEq
      exact hdisj (hEq ▸ hw) hu
    have hcfg : (cats.flatMap fun c' => c'.2).filterMap
          (jobCaptureFor (jrefs ++ c.2.filterMap (jobCaptureFor jrefs jr)) jr)
        = (cats.flatMap fun c' => c'.2).filterMap (jobCaptureFor jrefs jr) :=
      List.filterMap_congr fun u hu => jobCaptureFor_congr (hlk' u hu)
    have hmapcg : (cats.flatMap fun c' =>
          c'.2.map (jobRowFor (jrefs ++ c.2.filterMap (jobCaptureFor jrefs jr)) jr c'.1))
        = cats.flatMap fun c' => c'.2.map (jobRowFor jrefs jr c'.1) := by
      apply List.flatMap_congr
      intro c' hc'
      exact List.map_congr_left fun u hu =>
        jobRowFor_congr (hlk' u (List.mem_flatMap.mpr ⟨c', hc', hu⟩))
    rw [hcfg, hmapcg]
    simp [List.filterMap_append, isEmpty_append, List.append_assoc, Bool.or_assoc]

/-- Every ticker occurs exactly once across the configured categories. -/
theorem allTickers_nodup : allTickers.Nodup := by decide

theorem stock_pass_spec (pf : String → Option StockData)
    (cats : List (String × List String))
    (srefs : List (String × ℚ)) (new0 : Bool)
    (hnd : (cats.flatMap fun c => c.2).Nodup) :
    stock_pass pf cats srefs new0 =
      (srefs ++ (cats.flatMap fun c => c.2).filterMap (captureFor srefs pf),
       new0 || !((cats.flatMap fun c => c.2).filterMap (captureFor srefs pf)).isEmpty,
       cats.map fun c => (c.1, c.2.filterMap (rowFor srefs pf))) := by
  unfold stock_pass
  rw [stock_pass_fold pf cats srefs new0 [] hnd]
  simp only [List.nil_append]

theorem job_pass_spec (jr : String → SerpResponse)
    (cats : List (String × List String))
    (jrefs : List (String × ℕ)) (new0 : Bool)
    (hnd : (cats.flatMap fun c => c.2).Nodup) :
    job_pass jr cats jrefs new0 =
      (jrefs ++ (cats.flatMap fun c => c.2).filterMap (jobCaptureFor jrefs jr),
       new0 || !((cats.flatMap fun c => c.2).filterMap (jobCaptureFor jrefs jr)).isEmpty,
       cats.flatMap fun c => c.2.map (jobRowFor jrefs jr c.1)) := by
  unfold job_pass
  rw [job_pass_fold jr cats jrefs new0 [] hnd]
  simp only [List.nil_append]

/-- The `Except` layer of `generate_report` is transparent on a successful
load. -/
theorem generate_report_eq_ok (file : RefFile) (refs : References) (today : ℤ)
    (pf : String → Option StockData) (jr : String → SerpResponse)
    (hload : load_references file = .ok refs) :
    generate_report file today pf jr =
      .ok (generate_report_refs refs today pf jr) := by
  unfold generate_report
  rw [hload]

/-- Closed form of the report body on a run where the cadence gate is open:
both passes run, the refresh date is set to today, and the state is always
saved. -/
theorem generate_report_refs_open (refs : References) (today : ℤ)
    (pf : String → Option StockData) (jr : String → SerpResponse)
    (hgj : should_generate_job_report refs today = true) :
    generate_report_refs refs today pf jr =
      { stock_report :=
          TOP_STOCKS.map fun c => (c.1, c.2.filterMap (rowFor refs.stock_references pf))
        job_report :=
          if (TOP_STOCKS.flatMap fun c => c.2.map (jobRowFor refs.job_references jr c.1)).isEmpty
          then none
          else some (TOP_STOCKS.flatMap fun c => c.2.map (jobRowFor refs.job_references jr c.1))
        generate_jobs := true
        references :=
          { stock_references :=
              refs.stock_references ++
                allTickers.filterMap (captureFor refs.stock_references pf)
            job_references :=
              refs.job_references ++
                allTickers.filterMap (jobCaptureFor refs.job_references jr)
            last_report_date := some today }
        saved := true } := by
  have hnd0 := allTickers_nodup
  unfold allTickers at hnd0
  unfold generate_report_refs
  unfold allTickers
  generalize hT : TOP_STOCKS = cats
  rw [hT] at hnd0
  rw [stock_pass_spec pf cats refs.stock_references false hnd0, hgj]
  simp only [if_true]
  rw [job_pass_spec jr cats refs.job_references true hnd0]
  simp only [Bool.true_or]

/-- Closed form of the report body on a run where the cadence gate is
closed: only the stock pass runs; the state keeps its refresh date and its
hiring baselines, and is saved iff a price baseline was newly captured. -/
theorem generate_report_refs_closed (refs : References) (today : ℤ)
    (pf : String → Option StockData) (jr : String → SerpResponse)
    (hgj : should_generate_job_report refs today = false) :
    generate_report_refs refs today pf jr =
      { stock_report :=
          TOP_STOCKS.map fun c => (c.1, c.2.filterMap (rowFor refs.stock_references pf))
        job_report := none
        generate_jobs := false
        references :=
          { stock_references :=
              refs.stock_references ++
                allTickers.filterMap (captureFor refs.stock_references pf)
            job_references := refs.job_references
            last_report_date := refs.last_report_date }
        saved :=
          !(allTickers.filterMap (captureFor refs.stock_references pf)).isEmpty } := by
  have hnd0 := allTickers_nodup
  unfold allTickers at hnd0
  unfold generate_report_refs
  unfold allTickers
  generalize hT : TOP_STOCKS = cats
  rw [hT] at hnd0
  rw [stock_pass_spec pf cats refs.stock_references false hnd0, hgj]
  simp

theorem ref_change_self (p : ℚ) : ref_change p p = 0 := by
  unfold ref_change
  rw [sub_self, zero_div, zero_mul]

theorem job_change_self (n : ℕ) : job_change n n = 0 := by
  unfold job_change
  split
  · rw [sub_self, zero_div, zero_mul]
  · rfl

/-- The symbols of a row list are exactly the tickers whose fetch
succeeded, in order. -/
theorem rowFor_symbols (srefs : List (String × ℚ))
    (pf : String → Option StockData) (ts : List String) :
    (ts.filterMap (rowFor srefs pf)).map StockRow.symbol =
      ts.filter (fun t => (pf t).isSome) := by
  induction ts with
  | nil => rfl
  | cons t ts ih =>
    rw [List.filterMap_cons, List.filter_cons]
    cases hpf : pf t with
    | none =>
      have hr : rowFor srefs pf t = none := by simp [rowFor, hpf]
      simp [hr, hpf, ih]
    | some sd =>
      cases hlk : srefs.lookup (stock_key t) with
      | none =>
        have hr : rowFor srefs pf t =
            some ⟨t, sd.price, ref_change sd.price sd.price, sd.daily_change⟩ := by
          simp [rowFor, hpf, hlk]
        simp [hr, hpf, ih]
      | some rp =>
        have hr : rowFor srefs pf t =
            some ⟨t, sd.price, ref_change sd.price rp, sd.daily_change⟩ := by
          simp [rowFor, hpf, hlk]
        simp [hr, hpf, ih]

/-- The stock section of any successful run: one entry per category, whose
rows are the category's tickers filtered through `rowFor`. -/
theorem stock_report_of_run (file : RefFile) (refs : References) (today : ℤ)
    (pf : String → Option StockData) (jr : String → SerpResponse)
    (res : ReportResult)
    (hload : load_references file = .ok refs)
    (hres : generate_report file today pf jr = .ok res) :
    res.stock_report =
      TOP_STOCKS.map fun c => (c.1, c.2.filterMap (rowFor refs.stock_references pf)) := by
  rw [generate_report_eq_ok file refs today pf jr hload] at hres
  cases hgj : should_generate_job_report refs today with
  | true =>
    rw [generate_report_refs_open refs today pf jr hgj] at hres
    cases hres
    rfl
  | false =>
    rw [generate_report_refs_closed refs today pf jr hgj] at hres
    cases hres
    rfl

/-- On a gate-open run, every configured ticker's job row is in the
reported job data. -/
theorem job_row_in_report (file : RefFile) (refs : References) (today : ℤ)
    (pf : String → Option StockData) (jr : String → SerpResponse)
    (cat : String × List String) (t : String) (res : ReportResult)
    (hload : load_references file = .ok refs)
    (hgj : should_generate_job_report refs today = true)
    (hcat : cat ∈ TOP_STOCKS) (ht : t ∈ cat.2)
    (hres : generate_report file today pf jr = .ok res) :
    ∃ jd, res.job_report = some jd ∧
      jobRowFor refs.job_references jr cat.1 t ∈ jd := by
  rw [generate_report_eq_ok file refs today pf jr hload] at hres
  rw [generate_report_refs_open refs today pf jr hgj] at hres
  cases hres
  have hrow : jobRowFor refs.job_references jr cat.1 t ∈
      TOP_STOCKS.flatMap fun c => c.2.map (jobRowFor refs.job_references jr c.1) :=
    List.mem_flatMap.mpr ⟨cat, hcat, List.mem_map_of_mem _ ht⟩
  have hne : (TOP_STOCKS.flatMap fun c =>
      c.2.map (jobRowFor refs.job_references jr c.1)).isEmpty = false := by
    cases hjd : TOP_STOCKS.flatMap fun c =>
        c.2.map (jobRowFor refs.job_references jr c.1) with
    | nil => rw [hjd] at hrow; cases hrow
    | cons a l => rfl
  refine ⟨_, ?_, hrow⟩
  show (if (TOP_STOCKS.flatMap fun c =>
      c.2.map (jobRowFor refs.job_references jr c.1)).isEmpty then none
    else some (TOP_STOCKS.flatMap fun c =>
      c.2.map (jobRowFor refs.job_references jr c.1))) = _
  rw [hne]
  simp

/-- A lookup present before the run is still present, unchanged, in the
run's final in-memory state. -/
theorem stock_lookup_preserved (refs : References) (today : ℤ)
    (pf : String → Option StockData) (jr : String → SerpResponse)
    (k : String) (v : ℚ)
    (h : refs.stock_references.lookup k = some v) :
    (generate_report_refs refs today pf jr).references.stock_references.lookup k
      = some v := by
  cases hgj : should_generate_job_report refs today with
  | true =>
    rw [generate_report_refs_open refs today pf jr hgj]
    exact lookup_append_of_some _ h
  | false =>
    rw [generate_report_refs_closed refs today pf jr hgj]
    exact lookup_append_of_some _ h

theorem job_lookup_preserved (refs : References) (today : ℤ)
    (pf : String → Option StockData) (jr : String → SerpResponse)
    (k : String) (v : ℕ)
    (h : refs.job_references.lookup k = some v) :
    (generate_report_refs refs today pf jr).references.job_references.lookup k
      = some v := by
  cases hgj : should_generate_job_report refs today with
  | true =>
    rw [generate_report_refs_open refs today pf jr hgj]
    exact lookup_append_of_some _ h
  | false =>
    rw [generate_report_refs_closed refs today pf jr hgj]
    exact h

theorem run_once_preserves_stock (file : RefFile) (inp : RunInput)
    (k : String) (v : ℚ) (h : stockBaselineOf file k = some v) :
    stockBaselineOf (run_once file inp) k = some v := by
  cases file with
  | absent => simp [stockBaselineOf] at h
  | unreadable => simp [run_once, generate_report, load_references]; exact h
  | content refs =>
    unfold run_once
    rw [generate_report_eq_ok (.content refs) refs inp.today inp.priceFetch inp.jobResp rfl]
    cases hs : (generate_report_refs refs inp.today inp.priceFetch inp.jobResp).saved with
    | true =>
      simp only [hs, if_true]
      exact stock_lookup_preserved refs inp.today inp.priceFetch inp.jobResp k v h
    | false => simp only [hs, if_false]; exact h

theorem run_once_preserves_job (file : RefFile) (inp : RunInput)
    (k : String) (v : ℕ) (h : jobBaselineOf file k = some v) :
    jobBaselineOf (run_once file inp) k = some v := by
  cases file with
  | absent => simp [jobBaselineOf] at h
  | unreadable => simp [run_once, generate_report, load_references]; exact h
  | content refs =>
    unfold run_once
    rw [generate_report_eq_ok (.content refs) refs inp.today inp.priceFetch inp.jobResp rfl]
    cases hs : (generate_report_refs refs inp.today inp.priceFetch inp.jobResp).saved with
    | true =>
      simp only [hs, if_true]
      exact job_lookup_preserved refs inp.today inp.priceFetch inp.jobResp k v h
    | false => simp only [hs, if_false]; exact h

theorem run_seq_preserves_stock (inps : List RunInput) (file : RefFile)
    (k : String) (v : ℚ) (h : stockBaselineOf file k = some v) :
    stockBaselineOf (run_seq file inps) k = some v := by
  induction inps generalizing file with
  | nil => exact h
  | cons inp inps ih =>
    exact ih (run_once file inp) (run_once_preserves_stock file inp k v h)

theorem run_seq_preserves_job (inps : List RunInput) (file : RefFile)
    (k : String) (v : ℕ) (h : jobBaselineOf file k = some v) :
    jobBaselineOf (run_seq file inps) k = some v := by
  induction inps generalizing file with
  | nil => exact h
  | cons inp inps ih =>
    exact ih (run_once file inp) (run_once_preserves_job file inp k v h)

/-- The key newly captured for a ticker is looked up as the fetched count. -/
theorem lookup_jobCaptureFor (jrefs : List (String × ℕ))
    (jr : String → SerpResponse) (ts : List String) (t : String)
    (ht : t ∈ ts) (hlk : jrefs.lookup t = none) :
    (ts.filterMap (jobCaptureFor jrefs jr)).lookup t =
      some (get_job_openings (jr ((COMPANY_NAMES.lookup t).getD t))) := by
  induction ts with
  | nil => cases ht
  | cons u ts ih =>
    rw [List.filterMap_cons]
    by_cases hut : u = t
    · subst hut
      have hc : jobCaptureFor jrefs jr u =
          some (u, get_job_openings (jr ((COMPANY_NAMES.lookup u).getD u))) := by
        simp [jobCaptureFor, hlk]
      rw [hc, lookup_cons]
      simp
    · have ht' : t ∈ ts := by
        cases List.mem_cons.mp ht with
        | inl he => exact absurd he.symm hut
        | inr hm => exact hm
      cases hc : jobCaptureFor jrefs jr u with
      | none => exact ih ht'
      | some p =>
        have hp1 : p.1 = u := by
          unfold jobCaptureFor at hc
          cases hlku : jrefs.lookup u <;> rw [hlku] at hc
          · cases hc; rfl
          · exact absurd hc (by simp)
        rw [lookup_cons, hp1]
        have : t ≠ u := fun he => hut he.symm
        rw [if_neg this]
        exact ih ht'

/-! ### Claim theorems -/

/-- C4: the cadence gate returns true when no last-refresh date is stored;
with a stored date `D` (and the hard-coded 10-day interval) it returns true
exactly from `D + 10` on and false up to `D + 9` — an inclusive boundary. -/
theorem cadence_gate_boundary :
    (∀ (refs : References) (today : ℤ), refs.last_report_date = none →
        should_generate_job_report refs today = true) ∧
    (∀ (refs : References) (D today : ℤ), refs.last_report_date = some D →
        (today ≥ D + 10 → should_generate_job_report refs today = true) ∧
        (today ≤ D + 9 → should_generate_job_report refs today = false)) := by
  constructor
  · intro refs today h
    unfold should_generate_job_report
    rw [h]
  · intro refs D today h
    unfold should_generate_job_report
    rw [h]
    constructor <;> intro hd <;> simp <;> omega

/-- Witness for C4 at concrete dates. -/
theorem cadence_gate_boundary_witness :
    should_generate_job_report ⟨[], [], none⟩ 5 = true ∧
    should_generate_job_report ⟨[], [], some 0⟩ 10 = true ∧
    should_generate_job_report ⟨[], [], some 0⟩ 9 = false :=
  ⟨cadence_gate_boundary.1 ⟨[], [], none⟩ 5 rfl,
   (cadence_gate_boundary.2 ⟨[], [], some 0⟩ 0 10 rfl).1 (by decide),
   (cadence_gate_boundary.2 ⟨[], [], some 0⟩ 0 9 rfl).2 (by decide)⟩

/-- C3: with a stored hiring baseline of 0 the delta vs reference is
exactly 0 for any observed count; with a positive baseline it is
`(observed - baseline) / baseline * 100`; and a run's job row for an entity
with stored baseline `b` carries exactly `job_change observed b`. -/
theorem hiring_zero_baseline_policy :
    (∀ n : ℕ, job_change n 0 = 0) ∧
    (∀ n b : ℕ, 0 < b →
        job_change n b = ((n : ℚ) - (b : ℚ)) / (b : ℚ) * 100) ∧
    (∀ (file : RefFile) (refs : References) (today : ℤ)
        (pf : String → Option StockData) (jr : String → SerpResponse)
        (cat : String × List String) (t : String) (b : ℕ) (res : ReportResult),
      load_references file = .ok refs →
      generate_report file today pf jr = .ok res →
      should_generate_job_report refs today = true →
      cat ∈ TOP_STOCKS → t ∈ cat.2 →
      refs.job_references.lookup t = some b →
      ∃ jd, res.job_report = some jd ∧
        (⟨cat.1, (COMPANY_NAMES.lookup t).getD t,
          get_job_openings (jr ((COMPANY_NAMES.lookup t).getD t)),
          job_change (get_job_openings (jr ((COMPANY_NAMES.lookup t).getD t))) b⟩
            : JobRow) ∈ jd) := by
  refine ⟨?_, ?_, ?_⟩
  · intro n; rfl
  · intro n b hb
    unfold job_change
    rw [if_pos hb]
  · intro file refs today pf jr cat t b res hload hres hgj hcat ht hlk
    obtain ⟨jd, hjd, hmem⟩ :=
      job_row_in_report file refs today pf jr cat t res hload hgj hcat ht hres
    refine ⟨jd, hjd, ?_⟩
    have hrow : jobRowFor refs.job_references jr cat.1 t =
        ⟨cat.1, (COMPANY_NAMES.lookup t).getD t,
         get_job_openings (jr ((COMPANY_NAMES.lookup t).getD t)),
         job_change (get_job_openings (jr ((COMPANY_NAMES.lookup t).getD t))) b⟩ := by
      simp [jobRowFor, hlk]
    rwa [hrow] at hmem

/-- A reference state for the C3 witness: hiring baselines 0 and 5. -/
def C3refs : References := ⟨[], [("NVDA", 0), ("TSM", 5)], none⟩

/-- A price source whose every fetch fails. -/
def pfNone : String → Option StockData := fun _ => none

/-- A hiring source that always reports seven openings. -/
def jrSeven : String → SerpResponse := fun _ => .jobsResults 7

/-- Witness for C3: observed 7 vs baseline 0 gives delta 0 and the entity
still appears in the run's job rows; observed 7 vs baseline 5 gives the
exact formula. -/
theorem hiring_zero_baseline_policy_witness :
    job_change 7 0 = 0 ∧
    job_change 7 5 = ((7 : ℚ) - (5 : ℚ)) / (5 : ℚ) * 100 ∧
    (⟨"Semiconductor", "NVIDIA", 7, job_change 7 0⟩ : JobRow) ∈
      ((generate_report_refs C3refs 0 pfNone jrSeven).job_report.getD []) := by
  obtain ⟨h1, h2, h3⟩ := hiring_zero_baseline_policy
  refine ⟨h1 7, h2 7 5 (by decide), ?_⟩
  obtain ⟨jd, hjd, hmem⟩ := h3 (.content C3refs) C3refs 0 pfNone jrSeven
    ("Semiconductor",
      ["NVDA", "TSM", "ASML", "AMD", "INTC", "AVGO", "QCOM", "TXN", "MU", "ADI"])
    "NVDA" 0 (generate_report_refs C3refs 0 pfNone jrSeven) rfl
    (generate_report_eq_ok _ _ _ _ _ rfl) rfl (by decide) (by decide) rfl
  rw [hjd]
  exact hmem

/-- C2: on the run that newly captures a baseline, the delta vs reference
is exactly 0 — for price the stored value is the observation itself, so the
row reads `(price, 0, intraday)` with the intraday change passed through
from the observation unchanged; for hiring the new row's delta is likewise
0 whatever the observed count. -/
theorem first_run_delta_zero :
    (∀ (file : RefFile) (refs : References) (today : ℤ)
        (pf : String → Option StockData) (jr : String → SerpResponse)
        (cat : String × List String) (t : String) (sd : StockData)
        (res : ReportResult),
      load_references file = .ok refs →
      generate_report file today pf jr = .ok res →
      cat ∈ TOP_STOCKS → t ∈ cat.2 → pf t = some sd →
      refs.stock_references.lookup (stock_key t) = none →
      (cat.1, cat.2.filterMap (rowFor refs.stock_references pf)) ∈ res.stock_report ∧
      (⟨t, sd.price, 0, sd.daily_change⟩ : StockRow) ∈
        cat.2.filterMap (rowFor refs.stock_references pf)) ∧
    (∀ (file : RefFile) (refs : References) (today : ℤ)
        (pf : String → Option StockData) (jr : String → SerpResponse)
        (cat : String × List String) (t : String) (res : ReportResult),
      load_references file = .ok refs →
      generate_report file today pf jr = .ok res →
      should_generate_job_report refs today = true →
      cat ∈ TOP_STOCKS → t ∈ cat.2 →
      refs.job_references.lookup t = none →
      ∃ jd, res.job_report = some jd ∧
        (⟨cat.1, (COMPANY_NAMES.lookup t).getD t,
          get_job_openings (jr ((COMPANY_NAMES.lookup t).getD t)), 0⟩
            : JobRow) ∈ jd) := by
  constructor
  · intro file refs today pf jr cat t sd res hload hres hcat ht hpf hlk
    have hsr := stock_report_of_run file refs today pf jr res hload hres
    have hrow : rowFor refs.stock_references pf t =
        some ⟨t, sd.price, 0, sd.daily_change⟩ := by
      have h0 := ref_change_self sd.price
      simp [rowFor, hpf, hlk, h0]
    constructor
    · rw [hsr]
      exact List.mem_map_of_mem _ hcat
    · exact List.mem_filterMap.mpr ⟨t, ht, hrow⟩
  · intro file refs today pf jr cat t res hload hres hgj hcat ht hlk
    obtain ⟨jd, hjd, hmem⟩ :=
      job_row_in_report file refs today pf jr cat t res hload hgj hcat ht hres
    refine ⟨jd, hjd, ?_⟩
    have hrow : jobRowFor refs.job_references jr cat.1 t =
        ⟨cat.1, (COMPANY_NAMES.lookup t).getD t,
         get_job_openings (jr ((COMPANY_NAMES.lookup t).getD t)), 0⟩ := by
      have h0 := job_change_self (get_job_openings (jr ((COMPANY_NAMES.lookup t).getD t)))
      simp [jobRowFor, hlk, h0]
    rwa [hrow] at hmem

/-- A price source that knows only NVDA, at 100 with +2% intraday. -/
def pfNvda : String → Option StockData :=
  fun t => if t = "NVDA" then some ⟨"NVDA", 100, 2⟩ else none

/-- Witness for C2 on an empty state: NVDA's first price row has delta 0
and intraday +2 passed through; its first job row has delta 0. -/
theorem first_run_delta_zero_witness :
    (⟨"NVDA", 100, 0, 2⟩ : StockRow) ∈
      (["NVDA", "TSM", "ASML", "AMD", "INTC", "AVGO", "QCOM", "TXN", "MU", "ADI"].filterMap
        (rowFor emptyReferences.stock_references pfNvda)) ∧
    (⟨"Semiconductor", "NVIDIA", 7, 0⟩ : JobRow) ∈
      ((generate_report_refs emptyReferences 0 pfNvda jrSeven).job_report.getD []) := by
  obtain ⟨h1, h2⟩ := first_run_delta_zero
  constructor
  · exact (h1 .absent emptyReferences 0 pfNvda jrSeven
      ("Semiconductor",
        ["NVDA", "TSM", "ASML", "AMD", "INTC", "AVGO", "QCOM", "TXN", "MU", "ADI"])
      "NVDA" ⟨"NVDA", 100, 2⟩ (generate_report_refs emptyReferences 0 pfNvda jrSeven)
      rfl (generate_report_eq_ok _ _ _ _ _ rfl) (by decide) (by decide) rfl rfl).2
  · obtain ⟨jd, hjd, hmem⟩ := h2 .absent emptyReferences 0 pfNvda jrSeven
      ("Semiconductor",
        ["NVDA", "TSM", "ASML", "AMD", "INTC", "AVGO", "QCOM", "TXN", "MU", "ADI"])
      "NVDA" (generate_report_refs emptyReferences 0 pfNvda jrSeven)
      rfl (generate_report_eq_ok _ _ _ _ _ rfl) rfl (by decide) (by decide) rfl
    rw [hjd]
    exact hmem

/-- C1: a stored baseline (price or hiring) is never overwritten — it
survives any number of subsequent runs with arbitrary observed values, and
on any later run the entity's delta row is computed against exactly that
stored value. -/
theorem baseline_stability :
    (∀ (file : RefFile) (inps : List RunInput) (k : String) (v : ℚ),
        stockBaselineOf file k = some v →
        stockBaselineOf (run_seq file inps) k = some v) ∧
    (∀ (file : RefFile) (inps : List RunInput) (k : String) (v : ℕ),
        jobBaselineOf file k = some v →
        jobBaselineOf (run_seq file inps) k = some v) ∧
    (∀ (file : RefFile) (refs : References) (today : ℤ)
        (pf : String → Option StockData) (jr : String → SerpResponse)
        (cat : String × List String) (t : String) (sd : StockData) (v : ℚ)
        (res : ReportResult),
      load_references file = .ok refs →
      generate_report file today pf jr = .ok res →
      cat ∈ TOP_STOCKS → t ∈ cat.2 → pf t = some sd →
      refs.stock_references.lookup (stock_key t) = some v →
      (cat.1, cat.2.filterMap (rowFor refs.stock_references pf)) ∈ res.stock_report ∧
      (⟨t, sd.price, ref_change sd.price v, sd.daily_change⟩ : StockRow) ∈
        cat.2.filterMap (rowFor refs.stock_references pf)) ∧
    (∀ (file : RefFile) (refs : References) (today : ℤ)
        (pf : String → Option StockData) (jr : String → SerpResponse)
        (cat : String × List String) (t : String) (b : ℕ) (res : ReportResult),
      load_references file = .ok refs →
      generate_report file today pf jr = .ok res →
      should_generate_job_report refs today = true →
      cat ∈ TOP_STOCKS → t ∈ cat.2 →
      refs.job_references.lookup t = some b →
      ∃ jd, res.job_report = some jd ∧
        (⟨cat.1, (COMPANY_NAMES.lookup t).getD t,
          get_job_openings (jr ((COMPANY_NAMES.lookup t).getD t)),
          job_change (get_job_openings (jr ((COMPANY_NAMES.lookup t).getD t))) b⟩
            : JobRow) ∈ jd) := by
  refine ⟨?_, ?_, ?_, ?_⟩
  · intro file inps k v h
    exact run_seq_preserves_stock inps file k v h
  · intro file inps k v h
    exact run_seq_preserves_job inps file k v h
  · intro file refs today pf jr cat t sd v res hload hres hcat ht hpf hlk
    have hsr := stock_report_of_run file refs today pf jr res hload hres
    have hrow : rowFor refs.stock_references pf t =
        some ⟨t, sd.price, ref_change sd.price v, sd.daily_change⟩ := by
      simp [rowFor, hpf, hlk]
    constructor
    · rw [hsr]
      exact List.mem_map_of_mem _ hcat
    · exact List.mem_filterMap.mpr ⟨t, ht, hrow⟩
  · intro file refs today pf jr cat t b res hload hres hgj hcat ht hlk
    obtain ⟨jd, hjd, hmem⟩ :=
      job_row_in_report file refs today pf jr cat t res hload hgj hcat ht hres
    refine ⟨jd, hjd, ?_⟩
    have hrow : jobRowFor refs.job_references jr cat.1 t =
        ⟨cat.1, (COMPANY_NAMES.lookup t).getD t,
         get_job_openings (jr ((COMPANY_NAMES.lookup t).getD t)),
         job_change (get_job_openings (jr ((COMPANY_NAMES.lookup t).getD t))) b⟩ := by
      simp [jobRowFor, hlk]
    rwa [hrow] at hmem

/-- A reference state for the C1 witness: NVDA already baselined at
price 100 and 50 openings. -/
def C1refs : References := ⟨[("NVDA_reference", 100)], [("NVDA", 50)], none⟩

/-- A price source that knows only NVDA, now at 110 with +1% intraday. -/
def pfNvda110 : String → Option StockData :=
  fun t => if t = "NVDA" then some ⟨"NVDA", 110, 1⟩ else none

/-- Witness for C1: after a further run observing NVDA at 110 (and 7
openings), the stored baselines are still 100 and 50, and the run's rows
are computed against 100 and 50. -/
theorem baseline_stability_witness :
    stockBaselineOf (run_seq (.content C1refs) [⟨0, pfNvda110, jrSeven⟩])
        "NVDA_reference" = some 100 ∧
    jobBaselineOf (run_seq (.content C1refs) [⟨0, pfNvda110, jrSeven⟩])
        "NVDA" = some 50 ∧
    (⟨"NVDA", 110, ref_change 110 100, 1⟩ : StockRow) ∈
      (["NVDA", "TSM", "ASML", "AMD", "INTC", "AVGO", "QCOM", "TXN", "MU", "ADI"].filterMap
        (rowFor C1refs.stock_references pfNvda110)) ∧
    (⟨"Semiconductor", "NVIDIA", 7, job_change 7 50⟩ : JobRow) ∈
      ((generate_report_refs C1refs 0 pfNvda110 jrSeven).job_report.getD []) := by
  obtain ⟨h1, h2, h3, h4⟩ := baseline_stability
  refine ⟨h1 (.content C1refs) [⟨0, pfNvda110, jrSeven⟩] "NVDA_reference" 100 rfl,
          h2 (.content C1refs) [⟨0, pfNvda110, jrSeven⟩] "NVDA" 50 rfl, ?_, ?_⟩
  · exact (h3 (.content C1refs) C1refs 0 pfNvda110 jrSeven
      ("Semiconductor",
        ["NVDA", "TSM", "ASML", "AMD", "INTC", "AVGO", "QCOM", "TXN", "MU", "ADI"])
      "NVDA" ⟨"NVDA", 110, 1⟩ 100 (generate_report_refs C1refs 0 pfNvda110 jrSeven)
      rfl (generate_report_eq_ok _ _ _ _ _ rfl) (by decide) (by decide) rfl rfl).2
  · obtain ⟨jd, hjd, hmem⟩ := h4 (.content C1refs) C1refs 0 pfNvda110 jrSeven
      ("Semiconductor",
        ["NVDA", "TSM", "ASML", "AMD", "INTC", "AVGO", "QCOM", "TXN", "MU", "ADI"])
      "NVDA" 50 (generate_report_refs C1refs 0 pfNvda110 jrSeven)
      rfl (generate_report_eq_ok _ _ _ _ _ rfl) rfl (by decide) (by decide) rfl
    rw [hjd]
    exact hmem

/-- C5: `save_references` is called at most once per run (the single final
conditional write, modelled by the `saved` flag) and only when the state
changed; when the gate is closed and every successfully fetched ticker
already has a price baseline, the run does not write and the in-memory
state is exactly the loaded one. -/
theorem write_avoidance (file : RefFile) (refs : References) (today : ℤ)
    (pf : String → Option StockData) (jr : String → SerpResponse)
    (res : ReportResult)
    (hload : load_references file = .ok refs)
    (hres : generate_report file today pf jr = .ok res)
    (hgj : should_generate_job_report refs today = false)
    (hbase : ∀ t ∈ allTickers, ∀ sd : StockData, pf t = some sd →
        (refs.stock_references.lookup (stock_key t)).isSome = true) :
    res.saved = false ∧ res.references = refs := by
  rw [generate_report_eq_ok file refs today pf jr hload,
      generate_report_refs_closed refs today pf jr hgj] at hres
  injection hres with h
  subst h
  have hcaps : allTickers.filterMap (captureFor refs.stock_references pf) = [] := by
    rw [List.filterMap_eq_nil_iff]
    intro t ht
    cases hpf : pf t with
    | none => simp [captureFor, hpf]
    | some sd =>
      obtain ⟨w, hw⟩ := Option.isSome_iff_exists.mp (hbase t ht sd hpf)
      simp [captureFor, hpf, hw]
  constructor
  · simp only [hcaps]
    rfl
  · simp only [hcaps, List.append_nil]

/-- A reference state for the C5 witness: every configured ticker already
has a price baseline of 50, and the last refresh was on day 0. -/
def C5refs : References :=
  ⟨allTickers.map (fun t => (stock_key t, 50)), [], some 0⟩

/-- A price source returning 60 with +3% intraday for every ticker. -/
def pfSixty : String → Option StockData := fun t => some ⟨t, 60, 3⟩

/-- Witness for C5: five days after the last refresh, with all baselines
present, the run saves nothing and leaves the state untouched. -/
theorem write_avoidance_witness :
    (generate_report (.content C5refs) 5 pfSixty jrSeven).map
        (fun r => (r.saved, r.references)) = .ok (false, C5refs) := by
  have h := write_avoidance (.content C5refs) C5refs 5 pfSixty jrSeven
    (generate_report_refs C5refs 5 pfSixty jrSeven) rfl
    (generate_report_eq_ok _ _ _ _ _ rfl) (by decide)
    (by
      intro t ht sd hsd
      clear hsd
      revert t
      decide)
  rw [generate_report_eq_ok (.content C5refs) C5refs 5 pfSixty jrSeven rfl]
  rw [Except.map]
  rw [h.1, h.2]

/-- C9: the composed price section has one entry per configured sector, in
order; a sector's row symbols are exactly its tickers whose price fetch
succeeded, in the configured relative order; and a sector whose fetches all
failed still appears, paired with the empty list. -/
theorem price_section_composition (file : RefFile) (refs : References)
    (today : ℤ) (pf : String → Option StockData) (jr : String → SerpResponse)
    (res : ReportResult)
    (hload : load_references file = .ok refs)
    (hres : generate_report file today pf jr = .ok res) :
    res.stock_report.map Prod.fst = TOP_STOCKS.map Prod.fst ∧
    (∀ cat ∈ TOP_STOCKS,
      (cat.1, cat.2.filterMap (rowFor refs.stock_references pf)) ∈ res.stock_report ∧
      (cat.2.filterMap (rowFor refs.stock_references pf)).map StockRow.symbol =
        cat.2.filter (fun t => (pf t).isSome)) ∧
    (∀ cat ∈ TOP_STOCKS, (∀ t ∈ cat.2, pf t = none) →
      (cat.1, ([] : List StockRow)) ∈ res.stock_report) := by
  have hsr := stock_report_of_run file refs today pf jr res hload hres
  refine ⟨?_, ?_, ?_⟩
  · rw [hsr, List.map_map]
    exact List.map_congr_left fun c _ => rfl
  · intro cat hcat
    constructor
    · rw [hsr]
      exact List.mem_map_of_mem _ hcat
    · exact rowFor_symbols _ _ _
  · intro cat hcat hall
    have h0 : cat.2.filterMap (rowFor refs.stock_references pf) = [] := by
      rw [List.filterMap_eq_nil_iff]
      intro t ht
      simp [rowFor, hall t ht]
    have hm := List.mem_map_of_mem
      (fun c : String × List String => (c.1, c.2.filterMap (rowFor refs.stock_references pf)))
      hcat
    have hm2 : (cat.1, cat.2.filterMap (rowFor refs.stock_references pf)) ∈
        TOP_STOCKS.map
          (fun c => (c.1, c.2.filterMap (rowFor refs.stock_references pf))) := hm
    rw [h0] at hm2
    rw [hsr]
    exact hm2

/-- A price source that fails for ASML and succeeds elsewhere. -/
def pfNoAsml : String → Option StockData :=
  fun t => if t = "ASML" then none else some ⟨t, 60, 3⟩

/-- Witness for C9: with ASML failing, the Semiconductor row symbols are
the other nine tickers in order; with every fetch failing, the sector is
present with an empty row list. -/
theorem price_section_composition_witness :
    ((["NVDA", "TSM", "ASML", "AMD", "INTC", "AVGO", "QCOM", "TXN", "MU", "ADI"].filterMap
        (rowFor emptyReferences.stock_references pfNoAsml)).map StockRow.symbol =
      ["NVDA", "TSM", "AMD", "INTC", "AVGO", "QCOM", "TXN", "MU", "ADI"]) ∧
    ("Semiconductor", ([] : List StockRow)) ∈
      (generate_report_refs emptyReferences 0 pfNone jrSeven).stock_report := by
  constructor
  · have h := (price_section_composition .absent emptyReferences 0 pfNoAsml jrSeven
      (generate_report_refs emptyReferences 0 pfNoAsml jrSeven) rfl
      (generate_report_eq_ok _ _ _ _ _ rfl)).2.1
      ("Semiconductor",
        ["NVDA", "TSM", "ASML", "AMD", "INTC", "AVGO", "QCOM", "TXN", "MU", "ADI"])
      (by decide)
    rw [h.2]
    decide
  · exact (price_section_composition .absent emptyReferences 0 pfNone jrSeven
      (generate_report_refs emptyReferences 0 pfNone jrSeven) rfl
      (generate_report_eq_ok _ _ _ _ _ rfl)).2.2
      ("Semiconductor",
        ["NVDA", "TSM", "ASML", "AMD", "INTC", "AVGO", "QCOM", "TXN", "MU", "ADI"])
      (by decide) (by decide)

/-- C10: whenever the cadence gate is open, the refresh date is set to
today and the dirty flag raised before the hiring loop runs — the theorem
holds for every hiring source, including one whose every fetch fails — so
the state is saved and the gate stays closed for the next 9 days regardless
of whether any hiring data was obtained. -/
theorem gate_open_marks_and_saves (file : RefFile) (refs : References)
    (today : ℤ) (pf : String → Option StockData) (jr : String → SerpResponse)
    (res : ReportResult)
    (hload : load_references file = .ok refs)
    (hgj : should_generate_job_report refs today = true)
    (hres : generate_report file today pf jr = .ok res) :
    res.references.last_report_date = some today ∧
    res.saved = true ∧
    (∀ today' : ℤ, today' - today < 10 →
        should_generate_job_report res.references today' = false) := by
  rw [generate_report_eq_ok file refs today pf jr hload,
      generate_report_refs_open refs today pf jr hgj] at hres
  injection hres with h
  subst h
  refine ⟨rfl, rfl, ?_⟩
  intro today' hlt
  show should_generate_job_report
    { stock_references := _, job_references := _, last_report_date := some today }
    today' = false
  unfold should_generate_job_report
  simp
  omega

/-- Witness for C10: a first run (gate open) whose every hiring fetch
raises still marks day 0 as refreshed, saves, and keeps the gate shut on
day 9. -/
theorem gate_open_marks_and_saves_witness :
    (generate_report_refs emptyReferences 0 pfNone
        (fun _ => .exn)).references.last_report_date = some 0 ∧
    (generate_report_refs emptyReferences 0 pfNone (fun _ => .exn)).saved = true ∧
    should_generate_job_report
      (generate_report_refs emptyReferences 0 pfNone (fun _ => .exn)).references 9
        = false := by
  have h := gate_open_marks_and_saves .absent emptyReferences 0 pfNone (fun _ => .exn)
    (generate_report_refs emptyReferences 0 pfNone (fun _ => .exn)) rfl rfl
    (generate_report_eq_ok _ _ _ _ _ rfl)
  exact ⟨h.1, h.2.1, h.2.2 9 (by decide)⟩

/-- C6 counterexample: on a first run whose every hiring fetch raises, the
claim's exclusion does not happen — NVDA still appears in the run's hiring
rows (with count 0) and a hiring baseline of 0 is stored for it. -/
theorem hiring_failure_included_counterexample :
    generate_report (.content emptyReferences) 0 pfNone (fun _ => .exn) =
      .ok (generate_report_refs emptyReferences 0 pfNone (fun _ => .exn)) ∧
    (generate_report_refs emptyReferences 0 pfNone
        (fun _ => .exn)).references.job_references.lookup "NVDA" = some 0 ∧
    (⟨"Semiconductor", "NVIDIA", 0, 0⟩ : JobRow) ∈
      ((generate_report_refs emptyReferences 0 pfNone
          (fun _ => .exn)).job_report.getD []) := by
  refine ⟨rfl, by decide, by decide⟩

/-- C6 (amended): a hiring fetch failure (exception or error response) is
converted by `get_job_openings` to the count 0, so — unlike a price fetch
failure — the entity is not excluded: it appears in the run's hiring rows
with count 0, and when it has no stored hiring baseline, a baseline of 0 is
captured for it. -/
theorem hiring_failure_treated_as_zero (file : RefFile) (refs : References)
    (today : ℤ) (pf : String → Option StockData) (jr : String → SerpResponse)
    (cat : String × List String) (t : String) (res : ReportResult)
    (hload : load_references file = .ok refs)
    (hgj : should_generate_job_report refs today = true)
    (hcat : cat ∈ TOP_STOCKS) (ht : t ∈ cat.2)
    (hfail : jr ((COMPANY_NAMES.lookup t).getD t) = .exn ∨
             jr ((COMPANY_NAMES.lookup t).getD t) = .errorField)
    (hres : generate_report file today pf jr = .ok res) :
    get_job_openings (jr ((COMPANY_NAMES.lookup t).getD t)) = 0 ∧
    (∃ jd, res.job_report = some jd ∧
      (⟨cat.1, (COMPANY_NAMES.lookup t).getD t, 0,
        job_change 0 ((refs.job_references.lookup t).getD 0)⟩ : JobRow) ∈ jd) ∧
    (refs.job_references.lookup t = none →
      res.references.job_references.lookup t = some 0) := by
  have hzero : get_job_openings (jr ((COMPANY_NAMES.lookup t).getD t)) = 0 := by
    cases hfail with
    | inl he => rw [he]; rfl
    | inr he => rw [he]; rfl
  refine ⟨hzero, ?_, ?_⟩
  · obtain ⟨jd, hjd, hmem⟩ :=
      job_row_in_report file refs today pf jr cat t res hload hgj hcat ht hres
    refine ⟨jd, hjd, ?_⟩
    have hrow : jobRowFor refs.job_references jr cat.1 t =
        ⟨cat.1, (COMPANY_NAMES.lookup t).getD t, 0,
         job_change 0 ((refs.job_references.lookup t).getD 0)⟩ := by
      cases hlk : refs.job_references.lookup t with
      | none =>
        simp [jobRowFor, hlk, hzero, job_change_self]
      | some b =>
        simp [jobRowFor, hlk, hzero]
    rwa [hrow] at hmem
  · intro hlk
    rw [generate_report_eq_ok file refs today pf jr hload,
        generate_report_refs_open refs today pf jr hgj] at hres
    injection hres with h
    subst h
    have htick : t ∈ allTickers := List.mem_flatMap.mpr ⟨cat, hcat, ht⟩
    show (refs.job_references ++
        allTickers.filterMap (jobCaptureFor refs.job_references jr)).lookup t = some 0
    rw [lookup_append, hlk,
        lookup_jobCaptureFor refs.job_references jr allTickers t htick hlk, hzero]

/-- Witness for the amended C6: NVDA on a first run with a raising hiring
source. -/
theorem hiring_failure_treated_as_zero_witness :
    get_job_openings ((fun _ => SerpResponse.exn) "NVIDIA") = 0 ∧
    (⟨"Semiconductor", "NVIDIA", 0, job_change 0 0⟩ : JobRow) ∈
      ((generate_report_refs emptyReferences 0 pfNone
          (fun _ => .exn)).job_report.getD []) ∧
    (generate_report_refs emptyReferences 0 pfNone
        (fun _ => .exn)).references.job_references.lookup "NVDA" = some 0 := by
  have h := hiring_failure_treated_as_zero (.content emptyReferences)
    emptyReferences 0 pfNone (fun _ => .exn)
    ("Semiconductor",
      ["NVDA", "TSM", "ASML", "AMD", "INTC", "AVGO", "QCOM", "TXN", "MU", "ADI"])
    "NVDA" (generate_report_refs emptyReferences 0 pfNone (fun _ => .exn))
    rfl rfl (by decide) (by decide) (Or.inl rfl)
    (generate_report_eq_ok _ _ _ _ _ rfl)
  obtain ⟨h1, ⟨jd, hjd, hmem⟩, h3⟩ := h
  refine ⟨h1, ?_, h3 rfl⟩
  rw [hjd]
  exact hmem

/-- C7 counterexample: with every configuration variable absent the process
still attempts all 30 price fetches, the send failure is swallowed inside
`send_report`, and the exit code is 0 — there is no fail-fast. -/
theorem missing_config_no_failfast_counterexample :
    main_run ⟨none, none, none, none⟩ .absent 0 pfNone jrSeven true =
      { exit_code := 0, price_fetch_attempts := 30, email_sent := false } := by
  rfl

/-- C7 (amended): the script performs no configuration validation: the four
variables are read with `None` defaults and never checked, so for every
environment — missing values included — a run whose state file loads
attempts every configured price fetch and exits 0; missing credentials
surface only as a caught send failure (`email_sent = false`). -/
theorem no_config_failfast (env : Env) (file : RefFile) (refs : References)
    (today : ℤ) (pf : String → Option StockData) (jr : String → SerpResponse)
    (smtp_ok : Bool) (hload : load_references file = .ok refs) :
    main_run env file today pf jr smtp_ok =
      { exit_code := 0, price_fetch_attempts := total_tickers,
        email_sent := send_report_ok env smtp_ok } := by
  unfold main_run
  rw [generate_report_eq_ok file refs today pf jr hload]

/-- Witness for the amended C7: a concrete run with missing sender email
and API key exits 0 after fetching. -/
theorem no_config_failfast_witness :
    main_run ⟨none, some "pw", some "rcpt", none⟩ .absent 3 pfNone jrSeven true =
      { exit_code := 0, price_fetch_attempts := total_tickers,
        email_sent := false } :=
  no_config_failfast ⟨none, some "pw", some "rcpt", none⟩ .absent emptyReferences
    3 pfNone jrSeven true rfl

/-- C8 counterexample: an unreadable (present but corrupt) reference store
raises out of `load_references` and aborts the run with a nonzero exit —
it is not recovered as an empty state. -/
theorem load_unreadable_aborts_counterexample :
    load_references .unreadable = .error () ∧
    generate_report .unreadable 0 pfNone jrSeven = .error () ∧
    (main_run ⟨some "a", some "b", some "c", some "d"⟩ .unreadable 0 pfNone
        jrSeven true).exit_code = 1 :=
  ⟨rfl, rfl, rfl⟩

/-- C8 (amended): only a *missing* store is treated as a first run (the
empty state, never failing that run); a present store is decoded as-is; an
*unreadable* store is not recovered — the load raises and every run on it
aborts with exit code 1, making no fetch and sending nothing. -/
theorem load_missing_is_first_run :
    load_references .absent = .ok emptyReferences ∧
    (∀ refs : References, load_references (.content refs) = .ok refs) ∧
    load_references .unreadable = .error () ∧
    (∀ (env : Env) (today : ℤ) (pf : String → Option StockData)
        (jr : String → SerpResponse) (smtp_ok : Bool),
      main_run env .unreadable today pf jr smtp_ok =
        { exit_code := 1, price_fetch_attempts := 0, email_sent := false }) :=
  ⟨rfl, fun _ => rfl, rfl, fun _ _ _ _ _ => rfl⟩

end StockJobReport
